import Mathlib

/-!
Verification of the EkoIA CO2 microservice core against its specification.

The development shallowly embeds the data-cleaning, query and prediction
core of the repository:

* `co2_microservice/utils/data_analysis.py` (`CO2DataAnalyzer`): numeric
  coercion of the `VALOR_F` column, `REGION` normalization, the fixed
  unit-category partition, `filter_data`, and the grouped statistics.
* `co2_microservice/models/prediction_model.py` (`CO2PredictionModel`):
  `train` and `predict` with the one-hot feature encoding.

Machine floats are modelled by `PyFloat` (an exact rational together with
the special values NaN and the infinities) at the coercion layer, and by
`Option ℚ` (with `none` as the missing value NaN) inside tables, since no
settled claim depends on rounding.  Strings are Lean `String`s; `str.upper`
is modelled on the ASCII letters (the only letters produced by the
NFKD-decomposition table used for the Spanish-language regions), and the
PEP 515 digit-group underscores of Python's `float` constructor are not
modelled, since no claim depends on them.
-/

/-- Result type of Python's `float(...)` constructor: an exact finite
rational value or one of the special IEEE values it can denote. -/
inductive PyFloat where
  | finite (q : ℚ)
  | nan
  | inf
  | ninf
deriving DecidableEq, Repr

/-- The value of a list of ASCII digit characters, most significant first. -/
def digitsNatVal (l : List Char) : ℕ :=
  l.foldl (fun acc c => acc * 10 + (c.toNat - 48)) 0

/-- Parses a non-empty all-digit character list, as used for the integer
part of Python float literals and for exponents. -/
def digitsVal (l : List Char) : Option ℕ :=
  if l ≠ [] ∧ l.all Char.isDigit then some (digitsNatVal l) else none

/-- Splits a character list at the first exponent marker `e`/`E`, returning
the mantissa part and, when a marker is present, the exponent part. -/
def splitOnExp (l : List Char) : List Char × Option (List Char) :=
  match l.findIdx? (fun c => c == 'e' || c == 'E') with
  | none => (l, none)
  | some i => (l.take i, some (l.drop (i + 1)))

/-- Parses the unsigned mantissa of a Python float literal: decimal digits
with at most one decimal point and at least one digit overall. -/
def parseMantissa (l : List Char) : Option ℚ :=
  match l.findIdx? (fun c => c == '.') with
  | none => (digitsVal l).map (fun n => (n : ℚ))
  | some i =>
    let ip := l.take i
    let fp := l.drop (i + 1)
    if fp.findIdx? (fun c => c == '.') ≠ none then none
    else if ip.all Char.isDigit ∧ fp.all Char.isDigit ∧ (ip ≠ [] ∨ fp ≠ []) then
      some ((digitsNatVal ip : ℚ) + (digitsNatVal fp : ℚ) / (10 : ℚ) ^ fp.length)
    else none

/-- Parses the exponent part after `e`/`E`: an optional sign followed by at
least one digit. -/
def parseExpPart (l : List Char) : Option ℤ :=
  match l with
  | '+' :: t => (digitsVal t).map (fun n => (n : ℤ))
  | '-' :: t => (digitsVal t).map (fun n => -(n : ℤ))
  | t => (digitsVal t).map (fun n => (n : ℤ))

/-- Parses an unsigned decimal literal (mantissa and optional exponent),
negating the value when the stripped sign was a minus. -/
def parseDecimal (neg : Bool) (rest : List Char) : Option PyFloat :=
  let me := splitOnExp rest
  match parseMantissa me.1 with
  | none => none
  | some q =>
    match me.2 with
    | none => some (.finite (if neg then -q else q))
    | some el =>
      match parseExpPart el with
      | none => none
      | some ex =>
        let v := q * (10 : ℚ) ^ ex
        some (.finite (if neg then -v else v))

/-- Strips leading and trailing whitespace, as Python's `str.strip` and the
whitespace tolerance of `float(...)` do. -/
def pyStrip (l : List Char) : List Char :=
  ((l.dropWhile Char.isWhitespace).reverse.dropWhile Char.isWhitespace).reverse

/-- Python's `float(str)` constructor: surrounding whitespace, an optional
sign, the words `nan` / `inf` / `infinity` in any case, or a decimal
literal with optional exponent.  `none` models the `ValueError` raised on
any other input. -/
def pythonFloatParse (s : String) : Option PyFloat :=
  let l := pyStrip s.data
  if l = [] then none
  else
    let sr : Bool × List Char :=
      match l with
      | '+' :: t => (false, t)
      | '-' :: t => (true, t)
      | t => (false, t)
    let lower := sr.2.map Char.toLower
    if lower = "nan".data then some .nan
    else if lower = "inf".data ∨ lower = "infinity".data then
      some (if sr.1 then .ninf else .inf)
    else parseDecimal sr.1 sr.2

/-- Removes every comma, as `str.replace(",", "")` does on the raw
`VALOR_F` cells. -/
def stripCommas (raw : String) : String :=
  ⟨raw.data.filter (fun c => c != ',')⟩

/-- `data_analysis.py` line 35 and `prediction_model.py` line 48: one cell
of `df["VALOR_F"].astype(str).str.replace(",", "").astype(float)`.  The
`astype(str)` step means the input is already a string (a missing cell
arrives as the string `"nan"`, which parses to NaN, i.e. stays missing);
`astype(float)` raises `ValueError` on a cell that does not parse, which
the `Except.error` branch models. -/
def coerce_amount (raw : String) : Except String PyFloat :=
  match pythonFloatParse (stripCommas raw) with
  | some v => Except.ok v
  | none => Except.error "could not convert string to float"

/-- The whole-column `astype(float)` call: it converts the cells in order,
and the first unparseable cell aborts the conversion of the entire column
with a `ValueError`. -/
def coerceValorColumn : List String → Except String (List PyFloat)
  | [] => Except.ok []
  | c :: t =>
    match coerce_amount c with
    | Except.error e => Except.error e
    | Except.ok v =>
      match coerceValorColumn t with
      | Except.error e => Except.error e
      | Except.ok vs => Except.ok (v :: vs)

/-- Combining diacritical marks (U+0300 – U+036F), the block produced by
NFKD decomposition of the accented letters appearing in the data. -/
def isCombining (c : Char) : Bool :=
  decide (0x300 ≤ c.val ∧ c.val ≤ 0x36F)

/-- NFKD decomposition for the accented letters relevant to the Spanish
region names; every other character decomposes to itself.  Models
`unicodedata.normalize("NFKD", s)` on the alphabet in play. -/
def decomposeChar : Char → List Char
  | 'á' => ['a', '\u0301']
  | 'é' => ['e', '\u0301']
  | 'í' => ['i', '\u0301']
  | 'ó' => ['o', '\u0301']
  | 'ú' => ['u', '\u0301']
  | 'Á' => ['A', '\u0301']
  | 'É' => ['E', '\u0301']
  | 'Í' => ['I', '\u0301']
  | 'Ó' => ['O', '\u0301']
  | 'Ú' => ['U', '\u0301']
  | 'ñ' => ['n', '\u0303']
  | 'Ñ' => ['N', '\u0303']
  | 'ü' => ['u', '\u0308']
  | 'Ü' => ['U', '\u0308']
  | c => [c]

/-- `remove_accents` from `CO2DataAnalyzer._preprocess_data`: NFKD
decomposition followed by removal of the combining marks. -/
def removeAccents (l : List Char) : List Char :=
  (l.flatMap decomposeChar).filter (fun c => !isCombining c)

/-- The list of ASCII uppercase letters. -/
def asciiUppercase : List Char :=
  ['A', 'B', 'C', 'D', 'E', 'F', 'G', 'H', 'I', 'J', 'K', 'L', 'M',
   'N', 'O', 'P', 'Q', 'R', 'S', 'T', 'U', 'V', 'W', 'X', 'Y', 'Z']

/-- `str.upper` on one character, on the ASCII letters (the only letters
remaining after `removeAccents` on the region alphabet). -/
def pyUpperChar : Char → Char
  | 'a' => 'A'
  | 'b' => 'B'
  | 'c' => 'C'
  | 'd' => 'D'
  | 'e' => 'E'
  | 'f' => 'F'
  | 'g' => 'G'
  | 'h' => 'H'
  | 'i' => 'I'
  | 'j' => 'J'
  | 'k' => 'K'
  | 'l' => 'L'
  | 'm' => 'M'
  | 'n' => 'N'
  | 'o' => 'O'
  | 'p' => 'P'
  | 'q' => 'Q'
  | 'r' => 'R'
  | 's' => 'S'
  | 't' => 'T'
  | 'u' => 'U'
  | 'v' => 'V'
  | 'w' => 'W'
  | 'x' => 'X'
  | 'y' => 'Y'
  | 'z' => 'Z'
  | c => c

/-- `data_analysis.py` lines 40–47: the per-cell region normalization
`remove_accents` then `.str.upper()` then `.str.strip()`. -/
def normalizeRegion (s : String) : String :=
  ⟨pyStrip ((removeAccents s.data).map pyUpperChar)⟩

/-- Substring test, modelling `Series.str.contains` with a pattern free of
regex metacharacters. -/
def containsSub (s pat : String) : Bool :=
  decide (pat.data <:+: s.data)

/-- `data_analysis.py` lines 47–52 applied to the `REGION` column: every
cell is normalized, then the rows whose normalized region equals the
sentinels `"NAN"`/`"NONE"` or contains `"COLOMBIA"` are dropped. -/
def preprocessRegionColumn (regions : List String) : List String :=
  (regions.map normalizeRegion).filter
    (fun g => !((g == "NAN") || (g == "NONE") || containsSub g "COLOMBIA"))

/-- One row of the analyzer's table, with the columns the settled claims
touch.  Numeric cells are post-coercion values, `none` modelling NaN. -/
structure Row where
  ano : Option ℚ
  region : Option String
  categoria : Option String
  unidad : Option String
  valor : Option ℚ
deriving DecidableEq, Repr

/-- A pandas DataFrame as the analyzer sees it: an ordered row sequence
plus presence flags for the optional columns, mirroring the source's
`"COL" in df.columns` checks.  A flag being `false` means the column is
absent and its per-row field is ignored. -/
structure Table where
  rows : List Row
  hasANO : Bool
  hasREGION : Bool
  hasCATEGORIA : Bool
  hasUNIDAD : Bool
  hasVALOR : Bool
deriving DecidableEq, Repr

/-- `pd.DataFrame()` as produced for the partitions when `UNIDAD_F` is
absent: no rows and no columns. -/
def emptyTable : Table :=
  { rows := [], hasANO := false, hasREGION := false, hasCATEGORIA := false,
    hasUNIDAD := false, hasVALOR := false }

/-- Replaces the row sequence, keeping the column schema (a filtered view
shares the parent's columns). -/
def withRows (t : Table) (rs : List Row) : Table :=
  { t with rows := rs }

/-- `CO2DataAnalyzer.UNIDADES_AIRE_EMISIONES`. -/
def UNIDADES_AIRE_EMISIONES : List String :=
  ["GefCO2", "GefCH4", "GefN2O", "GefNOx", "GefCO"]

/-- `CO2DataAnalyzer.UNIDADES_BOSQUE_CAPTURA`. -/
def UNIDADES_BOSQUE_CAPTURA : List String :=
  ["CF", "toneladas de masa seca por hectárea", "MB", "Cf",
   "toneladas de materia seca"]

/-- `CO2DataAnalyzer.UNIDADES_CAUSAS_FACTORES`. -/
def UNIDADES_CAUSAS_FACTORES : List String :=
  ["toneladas de leña/habitante/año"]

/-- `df["UNIDAD_F"].isin(units)` on one row: a missing cell is never a
member. -/
def unidadIn (r : Row) (units : List String) : Bool :=
  match r.unidad with
  | some u => units.contains u
  | none => false

/-- The analyzer state after `__init__`: the main table and the three
category partitions built by `_create_category_dataframes`. -/
structure Analyzer where
  df : Table
  df_aire_emisiones : Table
  df_bosque_captura : Table
  df_causas_factores : Table
deriving DecidableEq, Repr

/-- `_create_category_dataframes` for one unit list: the subset of rows
whose `UNIDAD_F` is in the list when the column exists, otherwise the
empty DataFrame. -/
def categoryPartition (t : Table) (units : List String) : Table :=
  if t.hasUNIDAD then withRows t (t.rows.filter (fun r => unidadIn r units))
  else emptyTable

/-- Builds the analyzer from a table whose columns have already gone
through `_preprocess_data` (the string-level coercion and normalization
steps are modelled separately by `coerce_amount` and
`preprocessRegionColumn`). -/
def mkAnalyzer (t : Table) : Analyzer :=
  { df := t,
    df_aire_emisiones := categoryPartition t UNIDADES_AIRE_EMISIONES,
    df_bosque_captura := categoryPartition t UNIDADES_BOSQUE_CAPTURA,
    df_causas_factores := categoryPartition t UNIDADES_CAUSAS_FACTORES }

/-- `filter_data` lines 84–92: the base DataFrame selected by
`category_type`, with any unrecognized or absent value falling through to
the full table. -/
def selectBase (a : Analyzer) (category_type : Option String) : Table :=
  if category_type = some "aire_emisiones" then a.df_aire_emisiones
  else if category_type = some "bosque_captura" then a.df_bosque_captura
  else if category_type = some "causas_factores" then a.df_causas_factores
  else a.df

/-- `df_filtered["ANO"] >= start_year` on one row; a NaN year compares
false. -/
def anoGE (r : Row) (a : ℚ) : Bool :=
  match r.ano with
  | some v => decide (a ≤ v)
  | none => false

/-- `df_filtered["ANO"] <= end_year` on one row; a NaN year compares
false. -/
def anoLE (r : Row) (b : ℚ) : Bool :=
  match r.ano with
  | some v => decide (v ≤ b)
  | none => false

/-- `filter_data` lines 94–106 applied to an already selected base: the
year / year-range filters (exact year first, the range branch otherwise,
each guarded by the presence of `ANO`) followed by the region filter. -/
def applyFilters (base : Table) (year : Option ℚ) (region : Option String)
    (start_year end_year : Option ℚ) : Table :=
  let t1 :=
    if year.isSome && base.hasANO then
      withRows base (base.rows.filter (fun r => r.ano == year))
    else if start_year.isSome || end_year.isSome then
      if base.hasANO then
        let ta :=
          match start_year with
          | some a => withRows base (base.rows.filter (fun r => anoGE r a))
          | none => base
        match end_year with
        | some b => withRows ta (ta.rows.filter (fun r => anoLE r b))
        | none => ta
      else base
    else base
  if region.isSome && t1.hasREGION then
    withRows t1 (t1.rows.filter (fun r => r.region == region))
  else t1

/-- `CO2DataAnalyzer.filter_data`. -/
def filter_data (a : Analyzer) (year : Option ℚ) (region : Option String)
    (start_year end_year : Option ℚ) (category_type : Option String) : Table :=
  applyFilters (selectBase a category_type) year region start_year end_year

/-- Inserts an element into a sorted list, before the first element it
compares below. -/
def insertSorted {κ : Type} (le : κ → κ → Bool) (x : κ) : List κ → List κ
  | [] => [x]
  | y :: t => if le x y then x :: y :: t else y :: insertSorted le x t

/-- Structural insertion sort, used to model the ascending orderings
produced by `np.unique`, `groupby(sort=True)` and `Series.median`. -/
def insertionSort {κ : Type} (le : κ → κ → Bool) : List κ → List κ
  | [] => []
  | x :: t => insertSorted le x (insertionSort le t)

/-- The aggregates computed per group that the claims can observe.  The
sample standard deviation is omitted: it is irrational in general and no
claim depends on it. -/
structure AggRow where
  count : ℕ
  total : ℚ
  mean : ℚ
  median : ℚ
  vmin : ℚ
  vmax : ℚ
deriving DecidableEq, Repr

/-- Pandas aggregation of one group's metric values. -/
def aggValues (vs : List ℚ) : AggRow :=
  let n := vs.length
  let s := insertionSort (fun a b => decide (a ≤ b)) vs
  let med :=
    if n % 2 = 1 then s.getD (n / 2) 0
    else (s.getD (n / 2 - 1) 0 + s.getD (n / 2) 0) / 2
  { count := n,
    total := vs.sum,
    mean := vs.sum / n,
    median := med,
    vmin := vs.foldl min (vs.headD 0),
    vmax := vs.foldl max (vs.headD 0) }

/-- `df.groupby(key)` key order: pandas sorts the distinct keys
ascending (`sort=True` is the default). -/
def groupKeys {κ : Type} [DecidableEq κ] (le : κ → κ → Bool)
    (pairs : List (κ × ℚ)) : List κ :=
  insertionSort le ((pairs.map Prod.fst).dedup)

/-- `df.groupby(key)[metric].agg(...)` over key/metric pairs that have
already passed `dropna`: one aggregate row per distinct key, keys in
ascending order. -/
def groupAgg {κ : Type} [DecidableEq κ] (le : κ → κ → Bool)
    (pairs : List (κ × ℚ)) : List (κ × AggRow) :=
  (groupKeys le pairs).map
    (fun k => (k, aggValues ((pairs.filter (fun p => p.1 == k)).map Prod.snd)))

/-- Lexicographic code-point order on character lists, mirroring Python
and numpy string comparison. -/
def charListLe : List Char → List Char → Bool
  | [], _ => true
  | _ :: _, [] => false
  | a :: as, b :: bs =>
    if a < b then true
    else if b < a then false
    else charListLe as bs

/-- Boolean comparison used to order `String` group keys. -/
def strLe (a b : String) : Bool :=
  charListLe a.data b.data

/-- Lexicographic comparison for two-column group keys. -/
def strPairLe (a b : String × String) : Bool :=
  if a.1 == b.1 then strLe a.2 b.2 else strLe a.1 b.1

/-- `CO2DataAnalyzer.get_stats_by_region` (lines 177–208): filter, guard
on the `REGION` / `VALOR_F` columns and emptiness, drop rows with a
missing region or metric, then group by region. -/
def get_stats_by_region (a : Analyzer) (year : Option ℚ)
    (category_type : Option String) : List (String × AggRow) :=
  let t := filter_data a year none none none category_type
  if !t.hasREGION || !t.hasVALOR || t.rows.isEmpty then []
  else
    let clean := t.rows.filterMap
      (fun r =>
        match r.region, r.valor with
        | some g, some v => some (g, v)
        | _, _ => none)
    groupAgg strLe clean

/-- `CO2DataAnalyzer.get_stats_by_region_category` (lines 242–270): filter
by year, guard on the `REGION` / `CATEGORIA` / `VALOR_F` columns and
emptiness, drop rows missing any of the three, then group by the
region-category pair. -/
def get_stats_by_region_category (a : Analyzer) (year : Option ℚ) :
    List ((String × String) × AggRow) :=
  let t := filter_data a year none none none none
  if !(t.hasREGION && t.hasCATEGORIA && t.hasVALOR) || t.rows.isEmpty then []
  else
    let clean := t.rows.filterMap
      (fun r =>
        match r.region, r.categoria, r.valor with
        | some g, some c, some v => some ((g, c), v)
        | _, _, _ => none)
    groupAgg strPairLe clean

/-- One row of the table handed to `CO2PredictionModel.train`.  The
`REGION` / `CATEGORIA` / `VALOR_F` columns must exist (the source's
`dropna(subset=...)` raises `KeyError` otherwise); numeric cells are
post-coercion values with `none` as NaN. -/
structure TrainRow where
  ano : Option ℚ
  s : Option ℚ
  sb1 : Option ℚ
  region : Option String
  categoria : Option String
  valor : Option ℚ
deriving DecidableEq, Repr

/-- The training table with presence flags for the optional numeric
feature columns, mirroring `[f for f in numeric_features if f in
df.columns]`. -/
structure TrainTable where
  rows : List TrainRow
  hasANO : Bool
  hasS : Bool
  hasSB1 : Bool
deriving DecidableEq, Repr

/-- A row that survived `dropna(subset=categorical_features +
[target_col])`: region, category and target are present. -/
structure CleanRow where
  ano : Option ℚ
  s : Option ℚ
  sb1 : Option ℚ
  region : String
  categoria : String
  valor : ℚ
deriving DecidableEq, Repr

/-- `df_processed.dropna(subset=["REGION", "CATEGORIA", "VALOR_F"])`. -/
def cleanRows (t : TrainTable) : List CleanRow :=
  t.rows.filterMap
    (fun r =>
      match r.region, r.categoria, r.valor with
      | some g, some c, some v =>
        some { ano := r.ano, s := r.s, sb1 := r.sb1,
               region := g, categoria := c, valor := v }
      | _, _, _ => none)

/-- The state of a fitted `OneHotEncoder` over the two categorical
features: the observed category values of each, sorted ascending as
`np.unique` sorts them. -/
structure EncoderState where
  regionCats : List String
  categoriaCats : List String
deriving DecidableEq, Repr

/-- Sorted distinct values of a string list, as `np.unique` produces. -/
def sortedUnique (l : List String) : List String :=
  insertionSort strLe l.dedup

/-- `OneHotEncoder(...).fit` on the `REGION` / `CATEGORIA` columns of the
cleaned rows. -/
def oheFit (rows : List CleanRow) : EncoderState :=
  { regionCats := sortedUnique (rows.map (fun r => r.region)),
    categoriaCats := sortedUnique (rows.map (fun r => r.categoria)) }

/-- `ohe.get_feature_names_out(["REGION", "CATEGORIA"])`: sklearn joins
the column name and the category value with an underscore. -/
def getFeatureNamesOut (e : EncoderState) : List String :=
  e.regionCats.map (fun v => "REGION_" ++ v)
    ++ e.categoriaCats.map (fun v => "CATEGORIA_" ++ v)

/-- The numeric feature columns of `["ANO", "S", "SB1"]` present in the
table, in that order. -/
def numericFeaturesPresent (t : TrainTable) : List String :=
  (if t.hasANO then ["ANO"] else [])
    ++ (if t.hasS then ["S"] else [])
    ++ (if t.hasSB1 then ["SB1"] else [])

/-- One row of the design matrix `X = pd.concat([numeric, encoded])`:
the present numeric cells (possibly NaN) followed by the one-hot block. -/
def rowFeatures (t : TrainTable) (e : EncoderState) (r : CleanRow) :
    List (Option ℚ) :=
  ((if t.hasANO then [r.ano] else [])
      ++ (if t.hasS then [r.s] else [])
      ++ (if t.hasSB1 then [r.sb1] else []))
    ++ e.regionCats.map (fun v => some (if r.region = v then (1 : ℚ) else 0))
    ++ e.categoriaCats.map (fun v => some (if r.categoria = v then (1 : ℚ) else 0))

/-- `X.columns.tolist()` as stored in `self.feature_columns`: the numeric
passthrough block first, then the one-hot block. -/
def featureColumnsOf (t : TrainTable) : List String :=
  numericFeaturesPresent t ++ getFeatureNamesOut (oheFit (cleanRows t))

/-- The abstract errors `train` can signal.  `untrainedData` is sklearn's
`ValueError` for fitting on zero samples (the spec's `UntrainedDataError`),
`splitEmpty` is `train_test_split`'s `ValueError` when a split side would
be empty, and `nanInput` is the estimator's `ValueError` on a NaN feature
cell. -/
inductive TrainError where
  | untrainedData
  | splitEmpty
  | nanInput
deriving DecidableEq, Repr

/-- The metric entries of the returned map that the claims can observe
(the error metrics themselves are floating point and unobserved). -/
structure TrainMetrics where
  train_samples : ℕ
  test_samples : ℕ
  n_features : ℕ
deriving DecidableEq, Repr

/-- The model object's mutable attributes, threaded functionally. -/
structure ModelState where
  model : Option (List ℚ → ℚ)
  ohe : Option EncoderState
  feature_columns : Option (List String)

/-- The state after `__init__` with no saved model: nothing fitted. -/
def initialState : ModelState :=
  { model := none, ohe := none, feature_columns := none }

/-- The default `test_size=0.2` of `train`. -/
def defaultTestSize : ℚ :=
  Rat.divInt 1 5

/-- `train_test_split`'s test-side size, `ceil(test_size * n)` for the
nonnegative fractions in play, computed as the ceiling of the exact
fraction `n * num / den` in natural-number arithmetic. -/
def testCount (n : ℕ) (test_size : ℚ) : ℕ :=
  (n * test_size.num.toNat + (test_size.den - 1)) / test_size.den

/-- The design matrix `X = pd.concat([numeric, encoded])` of `train`, one
feature row per cleaned input row. -/
def designMatrix (t : TrainTable) : List (List (Option ℚ)) :=
  (cleanRows t).map (fun r => rowFeatures t (oheFit (cleanRows t)) r)

/-- The training-side row count of `train_test_split`. -/
def trainCount (t : TrainTable) (test_size : ℚ) : ℕ :=
  (cleanRows t).length - testCount (cleanRows t).length test_size

/-- The training-side design matrix (the fixed-seed shuffle of
`train_test_split` is modelled as the identity permutation; no settled
claim depends on which rows land in which side), with NaN cells read as
zero only after the NaN guard has already ruled them out. -/
def xTrain (t : TrainTable) (test_size : ℚ) : List (List ℚ) :=
  (((designMatrix t).map (fun v => v.map (fun c => c.getD 0))).take
    (trainCount t test_size))

/-- The training-side target vector. -/
def yTrain (t : TrainTable) (test_size : ℚ) : List ℚ :=
  (((cleanRows t).map (fun r => r.valor)).take (trainCount t test_size))

/-- `CO2PredictionModel.train`, parametrized by the learning algorithm
`rfFit` (the `RandomForestRegressor` fit, abstract: no settled claim
depends on the learned function).  Failure points, in source order:
fitting the encoder on an empty frame, an empty `train_test_split` side,
a NaN feature cell reaching the estimator. -/
def trainModel (rfFit : List (List ℚ) → List ℚ → (List ℚ → ℚ))
    (t : TrainTable) (test_size : ℚ) :
    Except TrainError (ModelState × TrainMetrics) :=
  if (cleanRows t).isEmpty then Except.error TrainError.untrainedData
  else if trainCount t test_size = 0
      || testCount (cleanRows t).length test_size = 0 then
    Except.error TrainError.splitEmpty
  else if (designMatrix t).any (fun v => v.any (fun c => c.isNone)) then
    Except.error TrainError.nanInput
  else
    Except.ok
      ({ model := some (rfFit (xTrain t test_size) (yTrain t test_size)),
         ohe := some (oheFit (cleanRows t)),
         feature_columns := some (featureColumnsOf t) },
       { train_samples := trainCount t test_size,
         test_samples := testCount (cleanRows t).length test_size,
         n_features := (featureColumnsOf t).length })

/-- The input dictionary of `CO2PredictionModel.predict`.  The categorical
keys must be present (their absence raises `KeyError` in the source, out
of the claims' scope); a numeric key may be absent (`none`). -/
structure Record where
  ano : Option ℚ
  s : Option ℚ
  sb1 : Option ℚ
  region : String
  categoria : String

/-- The error `predict` signals before a successful `train` (the source's
`ValueError("Modelo no entrenado...")`, the spec's
`ModelNotTrainedError`). -/
inductive PredictError where
  | modelNotTrained
deriving DecidableEq, Repr

/-- `predict` lines 157–187: the row built from the record (present
numeric keys, then the one-hot encoding with `handle_unknown="ignore"`),
zero-filled for vocabulary columns it lacks and reordered to
`feature_columns`; a constructed column outside the vocabulary is
dropped. -/
def alignFeatures (e : EncoderState) (vocab : List String) (rec : Record) :
    List ℚ :=
  let built : List (String × ℚ) :=
    ((match rec.ano with | some v => [("ANO", v)] | none => [])
        ++ (match rec.s with | some v => [("S", v)] | none => [])
        ++ (match rec.sb1 with | some v => [("SB1", v)] | none => []))
      ++ e.regionCats.map
          (fun v => ("REGION_" ++ v, if rec.region = v then (1 : ℚ) else 0))
      ++ e.categoriaCats.map
          (fun v => ("CATEGORIA_" ++ v, if rec.categoria = v then (1 : ℚ) else 0))
  vocab.map (fun name => ((built.lookup name).getD 0))

/-- `CO2PredictionModel.predict`: raises when no model or encoder is
fitted, otherwise applies the stored encoder and model to the aligned
feature row. -/
def predictModel (st : ModelState) (rec : Record) : Except PredictError ℚ :=
  match st.model, st.ohe with
  | some f, some e =>
    Except.ok (f (alignFeatures e (st.feature_columns.getD []) rec))
  | _, _ => Except.error PredictError.modelNotTrained

/-- The specification's claimed feature-name scheme, built from its words:
a one-hot column named `<column>=<value>` for each distinct observed value
of each categorical column, in discovery order. -/
def claimedOneHotNames (t : TrainTable) : List String :=
  (((cleanRows t).map (fun r => r.region)).dedup).map (fun v => "REGION=" ++ v)
    ++ (((cleanRows t).map (fun r => r.categoria)).dedup).map
        (fun v => "CATEGORIA=" ++ v)

/-- The specification's claimed row predicate for `filter_data`, built
from its words: the conjunction of the year filter (an exact match when
`year` is given, otherwise the inclusive range with either bound
omissible) and the region filter, where a filter whose column is absent
from the table is skipped as a no-op. -/
def claimPred (t : Table) (year start_year end_year : Option ℚ)
    (region : Option String) (r : Row) : Bool :=
  (if t.hasANO then
    match year with
    | some y => r.ano == some y
    | none =>
      (match start_year with
        | some a => anoGE r a
        | none => true)
        && (match end_year with
            | some b => anoLE r b
            | none => true)
  else true)
    && (if t.hasREGION then
          match region with
          | some g => r.region == some g
          | none => true
        else true)

/-- A learner producing the constantly-zero regressor, used to instantiate
the abstract `rfFit` parameter in concrete witnesses. -/
def rfZero : List (List ℚ) → List ℚ → (List ℚ → ℚ) :=
  fun _ _ => fun _ => 0

/-- A single training row with every required and numeric cell present. -/
def trainRowA : TrainRow :=
  { ano := some 2020, s := none, sb1 := none,
    region := some "A", categoria := some "B", valor := some 1 }

/-- A second training row with a different region. -/
def trainRowB : TrainRow :=
  { ano := some 2021, s := none, sb1 := none,
    region := some "B", categoria := some "B", valor := some 2 }

/-- A one-row training table: non-empty after cleaning, but too small for
the default 80/20 split. -/
def trainTableOne : TrainTable :=
  { rows := [trainRowA], hasANO := true, hasS := false, hasSB1 := false }

/-- A two-row training table on which the default split succeeds. -/
def trainTableTwo : TrainTable :=
  { rows := [trainRowA, trainRowB], hasANO := true, hasS := false,
    hasSB1 := false }

/-- The encoder `train` fits on `trainTableTwo`. -/
def encTwo : EncoderState :=
  { regionCats := ["A", "B"], categoriaCats := ["B"] }

/-- The model state `train` reaches on `trainTableTwo` with `rfZero`. -/
def stateTwo : ModelState :=
  { model := some (fun _ => 0), ohe := some encTwo,
    feature_columns := some ["ANO", "REGION_A", "REGION_B", "CATEGORIA_B"] }

/-- The observable metric entries of that training run. -/
def metricsTwo : TrainMetrics :=
  { train_samples := 1, test_samples := 1, n_features := 4 }

/-- A concrete prediction record whose region was seen at training time. -/
def recordA : Record :=
  { ano := some 2020, s := none, sb1 := none, region := "A", categoria := "B" }

/-- A concrete analyzer row with every cell present. -/
def rowA : Row :=
  { ano := some 2020, region := some "A", categoria := some "C",
    unidad := some "GefCO2", valor := some 1 }

/-- A concrete one-row table with all five columns present. -/
def tableA : Table :=
  { rows := [rowA], hasANO := true, hasREGION := true, hasCATEGORIA := true,
    hasUNIDAD := true, hasVALOR := true }

/-- The analyzer built over `tableA`. -/
def analyzerA : Analyzer :=
  mkAnalyzer tableA

/-- Inserting into a list permutes consing onto it. -/
theorem perm_insertSorted {κ : Type} (le : κ → κ → Bool) (x : κ) :
    ∀ l : List κ, (insertSorted le x l).Perm (x :: l)
  | [] => List.Perm.refl _
  | y :: t => by
    unfold insertSorted
    by_cases h : le x y = true
    · simp [h]
    · simp only [h, if_false]
      exact ((perm_insertSorted le x t).cons y).trans (List.Perm.swap x y t)

/-- Insertion sort permutes its input. -/
theorem perm_insertionSort {κ : Type} (le : κ → κ → Bool) :
    ∀ l : List κ, (insertionSort le l).Perm l
  | [] => List.Perm.refl _
  | x :: t =>
    (perm_insertSorted le x (insertionSort le t)).trans
      ((perm_insertionSort le t).cons x)

/-- The per-group row counts of a grouped aggregation add up to the number
of grouped rows. -/
theorem sum_groupAgg_counts {κ : Type} [DecidableEq κ] (le : κ → κ → Bool)
    (pairs : List (κ × ℚ)) :
    ((groupAgg le pairs).map (fun p => p.2.count)).sum = pairs.length := by
  unfold groupAgg groupKeys
  rw [List.map_map]
  have hcount :
      (fun p : κ × AggRow => p.2.count) ∘
          (fun k => (k, aggValues ((pairs.filter (fun p => p.1 == k)).map Prod.snd)))
        = fun k => List.countP (fun p => p.1 == k) pairs := by
    funext k
    simp [aggValues, List.countP_eq_length_filter]
  rw [hcount]
  have hperm :=
    (perm_insertionSort le ((pairs.map Prod.fst).dedup)).map
      (fun k => List.countP (fun p => p.1 == k) pairs)
  rw [hperm.sum_eq]
  have hpointwise :
      (fun k => List.countP (fun p => p.1 == k) pairs)
        = fun k => List.count k (pairs.map Prod.fst) := by
    funext k
    rw [List.count_eq_countP, List.countP_map]
    rfl
  rw [hpointwise]
  have := List.sum_map_count_dedup_eq_length (pairs.map Prod.fst)
  rw [this, List.length_map]

/-- C1, counterexample.  The claim says the amount coercion never raises
for any input string; but `astype(float)` raises `ValueError` on the cell
`"N/A"` (both per cell and for a whole column containing it), unlike the
`ANO` coercion which uses `errors="coerce"`. -/
theorem C1_coercion_raises_counterexample :
    coerce_amount "N/A" = Except.error "could not convert string to float"
      ∧ coerceValorColumn ["1,000", "N/A"]
          = Except.error "could not convert string to float" := by
  exact ⟨rfl, rfl⟩

/-- C1, amended: the `VALOR_F` coercion removes thousands-separator commas
and then parses each cell with `float`; a cell that parses (including the
textual `"nan"`, which stays a missing value) is converted, but a cell
that does not parse raises `ValueError` — it does not become a missing
value, and it aborts the conversion of the whole column. -/
theorem C1_amount_coercion_amended (col : List String) :
    ((∀ raw ∈ col, (pythonFloatParse (stripCommas raw)).isSome) →
      coerceValorColumn col
        = Except.ok
            (col.map (fun raw => (pythonFloatParse (stripCommas raw)).getD PyFloat.nan)))
    ∧ ((∃ raw ∈ col, pythonFloatParse (stripCommas raw) = none) →
      coerceValorColumn col = Except.error "could not convert string to float") := by
  induction col with
  | nil =>
    constructor
    · intro _
      rfl
    · rintro ⟨raw, hmem, -⟩
      exact absurd hmem (List.not_mem_nil raw)
  | cons c t ih =>
    constructor
    · intro hall
      have hc := hall c (List.mem_cons_self c t)
      obtain ⟨v, hv⟩ := Option.isSome_iff_exists.mp hc
      have ht := ih.1 (fun raw hraw => hall raw (List.mem_cons_of_mem c hraw))
      simp only [coerceValorColumn, coerce_amount, hv, ht, List.map_cons]
      rfl
    · rintro ⟨raw, hmem, hbad⟩
      rcases List.mem_cons.mp hmem with rfl | hmem'
      · simp only [coerceValorColumn, coerce_amount, hbad]
      · rcases hc : pythonFloatParse (stripCommas c) with - | v
        · simp only [coerceValorColumn, coerce_amount, hc]
        · have ht := ih.2 ⟨raw, hmem', hbad⟩
          simp only [coerceValorColumn, coerce_amount, hc, ht]

/-- C1, witness: the amended theorem applied to the singleton column
`["1,000"]`, whose comma-stripped form parses, yielding the value 1000. -/
theorem C1_amount_coercion_amended_witness :
    coerceValorColumn ["1,000"]
      = Except.ok
          (["1,000"].map (fun raw => (pythonFloatParse (stripCommas raw)).getD PyFloat.nan)) :=
  (C1_amount_coercion_amended ["1,000"]).1 (by decide)

/-- Stripping surrounding whitespace only removes characters. -/
theorem mem_pyStrip {c : Char} {l : List Char} (h : c ∈ pyStrip l) : c ∈ l := by
  unfold pyStrip at h
  rw [List.mem_reverse] at h
  have h2 : c ∈ (l.dropWhile Char.isWhitespace).reverse :=
    List.Sublist.mem h (List.dropWhile_sublist _)
  rw [List.mem_reverse] at h2
  exact List.Sublist.mem h2 (List.dropWhile_sublist _)

/-- Uppercasing a character either fixes it or yields an ASCII uppercase
letter. -/
theorem pyUpperChar_cases (c : Char) :
    pyUpperChar c = c ∨ pyUpperChar c ∈ asciiUppercase := by
  unfold pyUpperChar
  split
  all_goals first
    | exact Or.inl rfl
    | exact Or.inr (by decide)

/-- ASCII uppercase letters are fixed by uppercasing and are not combining
marks. -/
theorem uc_fixed_not_combining :
    ∀ c ∈ asciiUppercase, pyUpperChar c = c ∧ isCombining c = false := by
  decide

/-- C4: every region value surviving `_preprocess_data` is upper-cased
(fixed by uppercasing), free of combining diacritical marks, distinct from
the sentinels `"NAN"` and `"NONE"`, and does not contain the
national-aggregate marker `"COLOMBIA"`; violating rows were dropped. -/
theorem C4_region_invariants (regions : List String) :
    ∀ g ∈ preprocessRegionColumn regions,
      (∀ c ∈ g.data, pyUpperChar c = c ∧ isCombining c = false)
        ∧ g ≠ "NAN" ∧ g ≠ "NONE" ∧ containsSub g "COLOMBIA" = false := by
  intro g hg
  unfold preprocessRegionColumn at hg
  rw [List.mem_filter] at hg
  obtain ⟨hmem, hpred⟩ := hg
  rw [Bool.not_eq_true'] at hpred
  rw [Bool.or_eq_false_iff] at hpred
  obtain ⟨hpred12, hcol⟩ := hpred
  rw [Bool.or_eq_false_iff] at hpred12
  obtain ⟨hnan, hnone⟩ := hpred12
  rw [List.mem_map] at hmem
  obtain ⟨raw, -, rfl⟩ := hmem
  refine ⟨?_, ?_, ?_, hcol⟩
  · intro c hc
    have hc' : c ∈ (removeAccents raw.data).map pyUpperChar := mem_pyStrip hc
    rw [List.mem_map] at hc'
    obtain ⟨d, hd, rfl⟩ := hc'
    rcases pyUpperChar_cases d with h | h
    · rw [h]
      refine ⟨h, ?_⟩
      unfold removeAccents at hd
      rw [List.mem_filter] at hd
      have := hd.2
      rwa [Bool.not_eq_true'] at this
    · exact uc_fixed_not_combining _ h
  · intro hEq
    rw [hEq] at hnan
    simp at hnan
  · intro hEq
    rw [hEq] at hnone
    simp at hnone

/-- C4, witness: the invariant instantiated on the concrete input column
`["Bogotá"]`, whose surviving region value is `"BOGOTA"`. -/
theorem C4_region_invariants_witness :
    (∀ c ∈ "BOGOTA".data, pyUpperChar c = c ∧ isCombining c = false)
      ∧ "BOGOTA" ≠ "NAN" ∧ "BOGOTA" ≠ "NONE"
      ∧ containsSub "BOGOTA" "COLOMBIA" = false :=
  C4_region_invariants ["Bogotá"] "BOGOTA" (by decide)

/-- Membership in a category partition is exactly membership of the row's
unit in that class's fixed unit list (and requires the unit column). -/
theorem partition_mem (t : Table) (units : List String) (r : Row) :
    r ∈ (categoryPartition t units).rows
      ↔ t.hasUNIDAD = true ∧ r ∈ t.rows ∧ unidadIn r units = true := by
  by_cases h : t.hasUNIDAD = true
  · simp [categoryPartition, withRows, h, List.mem_filter, and_assoc]
  · simp [categoryPartition, emptyTable, h]

/-- A row's unit cannot lie in two disjoint unit lists at once. -/
theorem unidadIn_disjoint {r : Row} {A B : List String}
    (hd : List.Disjoint A B) :
    ¬(unidadIn r A = true ∧ unidadIn r B = true) := by
  rintro ⟨hA, hB⟩
  unfold unidadIn at hA hB
  cases hu : r.unidad with
  | none =>
    rw [hu] at hA
    exact Bool.false_ne_true hA
  | some u =>
    rw [hu] at hA hB
    have hmA : u ∈ A := by simpa using hA
    have hmB : u ∈ B := by simpa using hB
    exact hd hmA hmB

/-- C5: the three fixed unit lists are pairwise disjoint; membership in a
category partition is exact, case-sensitive lookup of the row's unit in
that class's list; and consequently every row belongs to at most one of
the three partitions. -/
theorem C5_partition_disjoint :
    List.Disjoint UNIDADES_AIRE_EMISIONES UNIDADES_BOSQUE_CAPTURA
    ∧ List.Disjoint UNIDADES_AIRE_EMISIONES UNIDADES_CAUSAS_FACTORES
    ∧ List.Disjoint UNIDADES_BOSQUE_CAPTURA UNIDADES_CAUSAS_FACTORES
    ∧ ∀ (t : Table) (r : Row),
        (r ∈ (mkAnalyzer t).df_aire_emisiones.rows
          ↔ t.hasUNIDAD = true ∧ r ∈ t.rows
              ∧ unidadIn r UNIDADES_AIRE_EMISIONES = true)
        ∧ (r ∈ (mkAnalyzer t).df_bosque_captura.rows
          ↔ t.hasUNIDAD = true ∧ r ∈ t.rows
              ∧ unidadIn r UNIDADES_BOSQUE_CAPTURA = true)
        ∧ (r ∈ (mkAnalyzer t).df_causas_factores.rows
          ↔ t.hasUNIDAD = true ∧ r ∈ t.rows
              ∧ unidadIn r UNIDADES_CAUSAS_FACTORES = true)
        ∧ ¬(r ∈ (mkAnalyzer t).df_aire_emisiones.rows
              ∧ r ∈ (mkAnalyzer t).df_bosque_captura.rows)
        ∧ ¬(r ∈ (mkAnalyzer t).df_aire_emisiones.rows
              ∧ r ∈ (mkAnalyzer t).df_causas_factores.rows)
        ∧ ¬(r ∈ (mkAnalyzer t).df_bosque_captura.rows
              ∧ r ∈ (mkAnalyzer t).df_causas_factores.rows) := by
  have d1 : List.Disjoint UNIDADES_AIRE_EMISIONES UNIDADES_BOSQUE_CAPTURA :=
    fun a ha hb =>
      (by decide : ∀ x ∈ UNIDADES_AIRE_EMISIONES, x ∉ UNIDADES_BOSQUE_CAPTURA)
        a ha hb
  have d2 : List.Disjoint UNIDADES_AIRE_EMISIONES UNIDADES_CAUSAS_FACTORES :=
    fun a ha hb =>
      (by decide : ∀ x ∈ UNIDADES_AIRE_EMISIONES, x ∉ UNIDADES_CAUSAS_FACTORES)
        a ha hb
  have d3 : List.Disjoint UNIDADES_BOSQUE_CAPTURA UNIDADES_CAUSAS_FACTORES :=
    fun a ha hb =>
      (by decide : ∀ x ∈ UNIDADES_BOSQUE_CAPTURA, x ∉ UNIDADES_CAUSAS_FACTORES)
        a ha hb
  refine ⟨d1, d2, d3, fun t r => ?_⟩
  have ha := partition_mem t UNIDADES_AIRE_EMISIONES r
  have hb := partition_mem t UNIDADES_BOSQUE_CAPTURA r
  have hc := partition_mem t UNIDADES_CAUSAS_FACTORES r
  refine ⟨ha, hb, hc, ?_, ?_, ?_⟩
  · rintro ⟨h1, h2⟩
    exact unidadIn_disjoint d1 ⟨(ha.mp h1).2.2, (hb.mp h2).2.2⟩
  · rintro ⟨h1, h2⟩
    exact unidadIn_disjoint d2 ⟨(ha.mp h1).2.2, (hc.mp h2).2.2⟩
  · rintro ⟨h1, h2⟩
    exact unidadIn_disjoint d3 ⟨(hb.mp h1).2.2, (hc.mp h2).2.2⟩

/-- C5, witness: on the concrete table `tableA`, whose single row carries
the air-emissions unit `"GefCO2"`, the at-most-one-partition consequence
excludes that row from the forest-capture partition. -/
theorem C5_partition_disjoint_witness :
    rowA ∉ (mkAnalyzer tableA).df_bosque_captura.rows :=
  fun h =>
    ((C5_partition_disjoint.2.2.2 tableA rowA).2.2.2.1) ⟨by decide, h⟩

/-- The year, range and region filters of `filter_data` keep exactly the
rows satisfying the claimed conjunction of filters. -/
theorem applyFilters_rows (base : Table) (year : Option ℚ)
    (region : Option String) (sy ey : Option ℚ) :
    (applyFilters base year region sy ey).rows
      = base.rows.filter (fun r => claimPred base year sy ey region r) := by
  cases hA : base.hasANO with
  | false =>
    cases year <;> cases sy <;> cases ey <;>
      cases hR : base.hasREGION <;> cases region <;>
        simp [applyFilters, claimPred, withRows, hA, hR, List.filter_filter,
          List.filter_true, Bool.and_comm, Bool.and_assoc, Bool.and_left_comm]
  | true =>
    cases year <;> cases sy <;> cases ey <;>
      cases hR : base.hasREGION <;> cases region <;>
        simp [applyFilters, claimPred, withRows, hA, hR, List.filter_filter,
          List.filter_true, Bool.and_comm, Bool.and_assoc, Bool.and_left_comm]

/-- C6: `filter_data` keeps exactly the rows of the selected base table
satisfying the conjunction of the given filters — an exact year match
taking precedence over the inclusive (and individually omissible) range
bounds, an exact region match, and any filter whose column is absent
skipped as a no-op. -/
theorem C6_filter_semantics (a : Analyzer) (year : Option ℚ)
    (region : Option String) (start_year end_year : Option ℚ)
    (category_type : Option String) :
    (filter_data a year region start_year end_year category_type).rows
      = (selectBase a category_type).rows.filter
          (fun r =>
            claimPred (selectBase a category_type) year start_year end_year region r) :=
  applyFilters_rows (selectBase a category_type) year region start_year end_year

/-- C10: a `category_type` other than the three recognized class names
falls through to the full unfiltered table — `filter_data` behaves exactly
as if no class filter had been given. -/
theorem C10_unknown_category_fallback (a : Analyzer) (year : Option ℚ)
    (region : Option String) (start_year end_year : Option ℚ) (ct : String)
    (h1 : ct ≠ "aire_emisiones") (h2 : ct ≠ "bosque_captura")
    (h3 : ct ≠ "causas_factores") :
    filter_data a year region start_year end_year (some ct)
      = filter_data a year region start_year end_year none := by
  unfold filter_data
  have hsel : selectBase a (some ct) = selectBase a none := by
    simp [selectBase, h1, h2, h3]
  rw [hsel]

/-- C10, witness: the fallback applied to the unrecognized class name
`"foo"` on the concrete analyzer. -/
theorem C10_unknown_category_fallback_witness :
    filter_data analyzerA none none none none (some "foo")
      = filter_data analyzerA none none none none none :=
  C10_unknown_category_fallback analyzerA none none none none "foo"
    (by decide) (by decide) (by decide)

/-- Dropping the rows with a missing region or metric keeps as many rows
as the corresponding filter. -/
theorem length_filterMap_region_valor (rows : List Row) :
    (rows.filterMap
        (fun r =>
          match r.region, r.valor with
          | some g, some v => some (g, v)
          | _, _ => none)).length
      = (rows.filter (fun r => r.region.isSome && r.valor.isSome)).length := by
  induction rows with
  | nil => rfl
  | cons r t ih => cases hg : r.region <;> cases hv : r.valor <;> simp [hg, hv, ih]

/-- Dropping the rows with a missing region, category or metric keeps as
many rows as the corresponding filter. -/
theorem length_filterMap_region_cat_valor (rows : List Row) :
    (rows.filterMap
        (fun r =>
          match r.region, r.categoria, r.valor with
          | some g, some c, some v => some ((g, c), v)
          | _, _, _ => none)).length
      = (rows.filter
          (fun r => r.region.isSome && r.categoria.isSome && r.valor.isSome)).length := by
  induction rows with
  | nil => rfl
  | cons r t ih =>
    cases hg : r.region <;> cases hc : r.categoria <;> cases hv : r.valor <;>
      simp [hg, hc, hv, ih]

/-- C2: for the region grouping and the region-category grouping, the
per-group counts add up to exactly the number of rows of the filtered
table that have no missing value in any grouping column or in the metric
column — rows with such a missing value contribute to no group. -/
theorem C2_groupby_completeness (a : Analyzer) (year : Option ℚ)
    (ct : Option String) :
    ((filter_data a year none none none ct).hasREGION = true →
      (filter_data a year none none none ct).hasVALOR = true →
      ((get_stats_by_region a year ct).map (fun p => p.2.count)).sum
        = ((filter_data a year none none none ct).rows.filter
            (fun r => r.region.isSome && r.valor.isSome)).length)
    ∧ ((filter_data a year none none none none).hasREGION = true →
      (filter_data a year none none none none).hasCATEGORIA = true →
      (filter_data a year none none none none).hasVALOR = true →
      ((get_stats_by_region_category a year).map (fun p => p.2.count)).sum
        = ((filter_data a year none none none none).rows.filter
            (fun r =>
              r.region.isSome && r.categoria.isSome && r.valor.isSome)).length) := by
  constructor
  · intro h1 h2
    unfold get_stats_by_region
    by_cases he : (filter_data a year none none none ct).rows.isEmpty
    · rw [List.isEmpty_iff] at he
      simp [h1, h2, he]
    · simp only [h1, h2, he, Bool.not_true, Bool.false_or, Bool.false_eq_true,
        if_false]
      rw [sum_groupAgg_counts]
      exact length_filterMap_region_valor _
  · intro h1 h2 h3
    unfold get_stats_by_region_category
    by_cases he : (filter_data a year none none none none).rows.isEmpty
    · rw [List.isEmpty_iff] at he
      simp [h1, h2, h3, he]
    · simp only [h1, h2, h3, he, Bool.and_self, Bool.not_true, Bool.false_or,
        Bool.false_eq_true, if_false]
      rw [sum_groupAgg_counts]
      exact length_filterMap_region_cat_valor _

/-- C2, witness: the completeness equation instantiated on the concrete
analyzer `analyzerA`, whose table has both columns. -/
theorem C2_groupby_completeness_witness :
    ((get_stats_by_region analyzerA none none).map (fun p => p.2.count)).sum
      = ((filter_data analyzerA none none none none none).rows.filter
          (fun r => r.region.isSome && r.valor.isSome)).length :=
  (C2_groupby_completeness analyzerA none none).1 (by rfl) (by rfl)

/-- The one-hot name pool contains exactly the observed category values. -/
theorem mem_sortedUnique {x : String} {l : List String} :
    x ∈ sortedUnique l ↔ x ∈ l := by
  unfold sortedUnique
  rw [(perm_insertionSort strLe l.dedup).mem_iff]
  exact List.mem_dedup

/-- C3, counterexample.  On a concrete one-row table the feature-column
list is `["ANO", "REGION_A", "CATEGORIA_B"]`: the numeric passthrough
column comes first and the one-hot columns are named with an underscore,
refuting the claimed `<column>=<value>` one-hot block followed by the
numeric columns. -/
theorem C3_feature_order_counterexample :
    featureColumnsOf trainTableOne = ["ANO", "REGION_A", "CATEGORIA_B"]
      ∧ ¬(featureColumnsOf trainTableOne
            = claimedOneHotNames trainTableOne
                ++ numericFeaturesPresent trainTableOne) := by
  constructor
  · decide
  · decide

/-- C3, amended: `train` builds the feature-column list with the numeric
passthrough columns (those of `ANO`, `S`, `SB1` present in the table)
first, followed by the one-hot columns, which are named
`<column>_<value>` and correspond exactly to the distinct observed values
of each categorical column. -/
theorem C3_feature_columns_amended (t : TrainTable) :
    featureColumnsOf t
        = numericFeaturesPresent t ++ getFeatureNamesOut (oheFit (cleanRows t))
      ∧ (∀ name ∈ getFeatureNamesOut (oheFit (cleanRows t)),
          (∃ v, v ∈ (cleanRows t).map (fun r => r.region)
              ∧ name = "REGION_" ++ v)
          ∨ (∃ v, v ∈ (cleanRows t).map (fun r => r.categoria)
              ∧ name = "CATEGORIA_" ++ v))
      ∧ (∀ v ∈ (cleanRows t).map (fun r => r.region),
          ("REGION_" ++ v) ∈ getFeatureNamesOut (oheFit (cleanRows t)))
      ∧ (∀ v ∈ (cleanRows t).map (fun r => r.categoria),
          ("CATEGORIA_" ++ v) ∈ getFeatureNamesOut (oheFit (cleanRows t))) := by
  refine ⟨rfl, ?_, ?_, ?_⟩
  · intro name hname
    unfold getFeatureNamesOut oheFit at hname
    rcases List.mem_append.mp hname with h | h
    · left
      rcases List.mem_map.mp h with ⟨v, hv, rfl⟩
      exact ⟨v, mem_sortedUnique.mp hv, rfl⟩
    · right
      rcases List.mem_map.mp h with ⟨v, hv, rfl⟩
      exact ⟨v, mem_sortedUnique.mp hv, rfl⟩
  · intro v hv
    unfold getFeatureNamesOut oheFit
    exact List.mem_append.mpr
      (Or.inl (List.mem_map.mpr ⟨v, mem_sortedUnique.mpr hv, rfl⟩))
  · intro v hv
    unfold getFeatureNamesOut oheFit
    exact List.mem_append.mpr
      (Or.inr (List.mem_map.mpr ⟨v, mem_sortedUnique.mpr hv, rfl⟩))

/-- C3, witness: the amended ordering instantiated on the concrete
one-row table. -/
theorem C3_feature_columns_amended_witness :
    featureColumnsOf trainTableOne
      = numericFeaturesPresent trainTableOne
          ++ getFeatureNamesOut (oheFit (cleanRows trainTableOne)) :=
  (C3_feature_columns_amended trainTableOne).1

/-- With the default `test_size=0.2`, the test side holds `ceil(n/5)`
rows. -/
theorem testCount_default (n : ℕ) : testCount n defaultTestSize = (n + 4) / 5 := by
  unfold testCount defaultTestSize
  have h1 : (Rat.divInt 1 5).num.toNat = 1 := rfl
  have h2 : (Rat.divInt 1 5).den = 5 := rfl
  rw [h1, h2]
  omega

/-- A numeric design-matrix cell is present when the guarding column flag
implies presence of the value. -/
theorem numCell_no_none (b : Bool) (v : Option ℚ)
    (h : b = true → v.isSome = true) :
    (if b then [v] else []).any (fun c => c.isNone) = false := by
  cases b with
  | false => rfl
  | true =>
    have hv := h rfl
    cases v with
    | none => exact absurd hv (by simp)
    | some q => rfl

/-- One-hot cells are always present. -/
theorem onehot_no_none (l : List String) (x : String) :
    (l.map (fun v => some (if x = v then (1 : ℚ) else 0))).any
        (fun c => c.isNone) = false := by
  induction l with
  | nil => rfl
  | cons y t ih => simp [ih]

/-- A design-matrix row has no NaN cell when the row's present numeric
features are present. -/
theorem rowFeatures_no_none (t : TrainTable) (e : EncoderState) (r : CleanRow)
    (hano : t.hasANO = true → r.ano.isSome = true)
    (hs : t.hasS = true → r.s.isSome = true)
    (hsb1 : t.hasSB1 = true → r.sb1.isSome = true) :
    (rowFeatures t e r).any (fun c => c.isNone) = false := by
  unfold rowFeatures
  simp only [List.any_append]
  rw [numCell_no_none t.hasANO r.ano hano, numCell_no_none t.hasS r.s hs,
    numCell_no_none t.hasSB1 r.sb1 hsb1, onehot_no_none e.regionCats r.region,
    onehot_no_none e.categoriaCats r.categoria]
  rfl

/-- C8, counterexample.  The claim says `train` succeeds whenever the
table is non-empty after the required-column cleaning; but a one-row
table survives cleaning and still fails, at `train_test_split` (whose
default 80/20 split leaves an empty training side), with an error that is
not the empty-data error. -/
theorem C8_train_single_row_counterexample :
    cleanRows trainTableOne ≠ []
      ∧ trainModel rfZero trainTableOne defaultTestSize
          = Except.error TrainError.splitEmpty := by
  exact ⟨by decide, rfl⟩

/-- C8, amended: `train` signals the empty-data error (the spec's
`UntrainedDataError`) when the table has zero rows after dropping rows
with missing values in the required categorical and target columns; with
at least two surviving rows whose present numeric feature cells are all
non-missing it succeeds, while a single surviving row still fails at the
train/test split. -/
theorem C8_train_empty_amended
    (rfFit : List (List ℚ) → List ℚ → (List ℚ → ℚ)) (t : TrainTable) :
    (cleanRows t = [] →
      trainModel rfFit t defaultTestSize = Except.error TrainError.untrainedData)
    ∧ (2 ≤ (cleanRows t).length →
      (∀ r ∈ cleanRows t,
        (t.hasANO = true → r.ano.isSome = true)
          ∧ (t.hasS = true → r.s.isSome = true)
          ∧ (t.hasSB1 = true → r.sb1.isSome = true)) →
      (trainModel rfFit t defaultTestSize).isOk = true) := by
  constructor
  · intro h
    unfold trainModel
    rw [h]
    rfl
  · intro hlen hnum
    have hne : (cleanRows t).isEmpty = false := by
      cases hcr : cleanRows t with
      | nil =>
        rw [hcr] at hlen
        simp at hlen
      | cons a l => rfl
    simp only [trainModel, hne, Bool.false_eq_true, if_false]
    split
    · next hguard =>
      exfalso
      unfold trainCount at hguard
      rw [testCount_default] at hguard
      simp only [Bool.or_eq_true, decide_eq_true_eq] at hguard
      omega
    · next hguard =>
      split
      · next hnan =>
        exfalso
        rw [List.any_eq_true] at hnan
        obtain ⟨v, hv, hvn⟩ := hnan
        unfold designMatrix at hv
        rw [List.mem_map] at hv
        obtain ⟨r, hr, rfl⟩ := hv
        have := rowFeatures_no_none t (oheFit (cleanRows t)) r
          (hnum r hr).1 (hnum r hr).2.1 (hnum r hr).2.2
        rw [this] at hvn
        exact Bool.false_ne_true hvn
      · rfl

/-- C8, witness: the amended theorem applied to the concrete two-row
table, whose cleaning keeps both rows and whose numeric cells are
present, so training succeeds. -/
theorem C8_train_empty_amended_witness :
    (trainModel rfZero trainTableTwo defaultTestSize).isOk = true :=
  (C8_train_empty_amended rfZero trainTableTwo).2 (by decide) (by decide)


/-- C9: `predict` on the untrained initial state signals the
model-not-trained error (the spec's `ModelNotTrainedError`) for every
record; after any successful `train`, the state carries a fitted model,
encoder and the training-time vocabulary, and `predict` returns the
fitted model applied to the record aligned against that vocabulary. -/
theorem C9_predict_state_machine :
    (∀ rec : Record,
      predictModel initialState rec = Except.error PredictError.modelNotTrained)
    ∧ (∀ (rfFit : List (List ℚ) → List ℚ → (List ℚ → ℚ)) (t : TrainTable)
        (ts : ℚ) (st : ModelState) (m : TrainMetrics),
        trainModel rfFit t ts = Except.ok (st, m) →
        ∀ rec : Record,
          st.model.isSome = true ∧ st.ohe.isSome = true
            ∧ st.feature_columns = some (featureColumnsOf t)
            ∧ predictModel st rec
                = Except.ok
                    ((st.model.getD (fun _ => 0))
                      (alignFeatures (st.ohe.getD (EncoderState.mk [] []))
                        (featureColumnsOf t) rec))) := by
  constructor
  · intro rec
    rfl
  · intro rfFit t ts st m h rec
    unfold trainModel at h
    split at h
    · exact absurd h (by simp)
    · split at h
      · exact absurd h (by simp)
      · split at h
        · exact absurd h (by simp)
        · rw [Except.ok.injEq, Prod.mk.injEq] at h
          obtain ⟨hst, -⟩ := h
          subst hst
          exact ⟨rfl, rfl, rfl, rfl⟩

/-- C9, witness: the trained-state conclusion instantiated on the
concrete two-row training run, followed by a prediction for a record
seen at training time. -/
theorem C9_predict_state_machine_witness :
    stateTwo.model.isSome = true ∧ stateTwo.ohe.isSome = true
      ∧ stateTwo.feature_columns = some (featureColumnsOf trainTableTwo)
      ∧ predictModel stateTwo recordA
          = Except.ok
              ((stateTwo.model.getD (fun _ => 0))
                (alignFeatures (stateTwo.ohe.getD (EncoderState.mk [] []))
                  (featureColumnsOf trainTableTwo) recordA)) :=
  C9_predict_state_machine.2 rfZero trainTableTwo defaultTestSize stateTwo
    metricsTwo (by rfl) recordA
